import Mathlib

/-!
Verification of the TerraFusion model-lifecycle and resilient-serving core.

The definitions below are a shallow embedding of the Python sources:
  backend/model_deployment_logger.py   (deployment status tracker, event log)
  backend/model_versioning.py          (model registry)
  backend/condition_inference.py       (fallback-aware condition scorer)
  backend/audit_inference.py           (inference audit trail)
  backend/drift_monitor.py             (feedback drift monitor)

File persistence is modelled as explicit state passing: every Python function
that reads its state from disk and writes it back is embedded as a function on
the corresponding state value.  Wall-clock timestamps are passed in as
parameters.  Floating-point scores are modelled as exact rationals.
-/

/-- Python `x or default` on an optional string: `None` and `""` are falsy. -/
def pyOr (o : Option String) (d : String) : String :=
  match o with
  | some s => if s = "" then d else s
  | none => d

/-- Truthiness of an optional string, as Python `if x:`. -/
def pyTruthy (o : Option String) : Bool :=
  match o with
  | some s => s ≠ ""
  | none => false

/-- Split a character list at every occurrence of the separator `c`. -/
def splitChar (c : Char) : List Char → List (List Char)
  | [] => [[]]
  | x :: xs =>
      match splitChar c xs, decide (x = c) with
      | r, true => [] :: r
      | h :: t, false => (x :: h) :: t
      | [], false => [[x]]

/-- Python `s.split(sep)` for a one-character separator (`String.splitOn`
restricted to the separators this code base uses). -/
def splitOnCharS (c : Char) (s : String) : List String :=
  (splitChar c s.toList).map String.mk

/-- The numeric value of a decimal digit character, `none` otherwise. -/
def charDigit (c : Char) : Option Nat :=
  if c.toNat ≥ 48 ∧ c.toNat ≤ 57 then some (c.toNat - 48) else none

/-- Python `int(s)` on a canonical decimal numeral: `none` (the code would
raise `ValueError`) when `s` is empty or contains a non-digit. -/
def parseNat (s : String) : Option Nat :=
  match s.toList with
  | [] => none
  | l => l.foldl (fun acc c =>
      match acc, charDigit c with
      | some n, some d => some (n * 10 + d)
      | _, _ => none) (some 0)

/-- Python `<` on strings: lexicographic comparison by code point, a strict
prefix comparing smaller. -/
def chListLt : List Char → List Char → Bool
  | [], [] => false
  | [], _ :: _ => true
  | _ :: _, [] => false
  | a :: as, b :: bs =>
      if a.toNat < b.toNat then true
      else if b.toNat < a.toNat then false
      else chListLt as bs

/-- Python `<` on strings, as used to order pandas group keys. -/
def strLtB (a b : String) : Bool :=
  chListLt a.toList b.toList

/-! ## Deployment status tracker (`model_deployment_logger.py`) -/

/-- One deployment entry, the shape of `status["current_deployment"]` and of the
entries of `status["deployment_history"]`. -/
structure Deployment where
  model : String
  version : String
  timestamp : String
  status : String
deriving DecidableEq, Repr

/-- The persisted `rollout_status.json` state held by class `DeploymentStatus`
(`last_updated` carries no behaviour and is omitted). -/
structure DeploymentStatusState where
  current_deployment : Deployment
  fallback_enabled : Bool
  fallback_version : Option String
  deployment_history : List Deployment
deriving DecidableEq, Repr

/-- `DeploymentStatus._create_default_status`: the default status created on
first access, with the creation timestamp `t`. -/
def default_status (t : String) : DeploymentStatusState :=
  { current_deployment :=
      { model := "condition_model", version := "1.0.0", timestamp := t, status := "active" }
    fallback_enabled := false
    fallback_version := none
    deployment_history := [] }

/-- `DeploymentStatus.update_deployment`: push the previous current deployment
onto the front of the history, truncate the history to 10 entries when it
exceeds 10, and install the new current deployment (timestamp `ts`). -/
def update_deployment (st : DeploymentStatusState) (model version ts status : String) :
    DeploymentStatusState :=
  let h1 := st.current_deployment :: st.deployment_history
  let h2 := if h1.length > 10 then h1.take 10 else h1
  { st with
    current_deployment := { model := model, version := version, timestamp := ts, status := status }
    deployment_history := h2 }

/-- `DeploymentStatus.set_fallback_config`. -/
def set_fallback_config (st : DeploymentStatusState) (enabled : Bool)
    (fallback_version : Option String) : DeploymentStatusState :=
  { st with fallback_enabled := enabled, fallback_version := fallback_version }

/-- `get_fallback_model_version`: `none` when fallback is disabled; the
configured fallback version when it is truthy; otherwise the version of the
most recent history entry, or `none` on empty history. -/
def get_fallback_model_version (st : DeploymentStatusState) : Option String :=
  if ¬ st.fallback_enabled then none
  else if pyTruthy st.fallback_version then st.fallback_version
  else
    match st.deployment_history with
    | d :: _ => some d.version
    | [] => none

/-- A row of the append-only `deployment_events.csv` log (the free-text
`message` and the json `metadata` carry no behaviour relevant here; the message
is kept, metadata omitted). -/
structure DeploymentEvent where
  timestamp : String
  event_type : String
  model : String
  version : String
  message : String
deriving DecidableEq, Repr

/-- `deploySeq st calls` applies `update_deployment` once per `(model, version,
timestamp)` triple, in order. -/
def deploySeq (st : DeploymentStatusState) : List (String × String × String) →
    DeploymentStatusState
  | [] => st
  | (m, v, ts) :: rest => deploySeq (update_deployment st m v ts "active") rest

/-- The stack of deployments pushed into the history by a `deploySeq` run,
most-recent-first: for each call, the `current_deployment` observed just before
that call. -/
def pushedStack (st : DeploymentStatusState) : List (String × String × String) →
    List Deployment
  | [] => []
  | (m, v, ts) :: rest =>
      pushedStack (update_deployment st m v ts "active") rest ++ [st.current_deployment]

/-! ## Model registry (`model_versioning.py`) -/

/-- Lookup in a Python-dict modelled as an insertion-ordered association list. -/
def alistGet {α : Type} (l : List (String × α)) (k : String) : Option α :=
  (l.find? (fun p => p.1 = k)).map (fun p => p.2)

/-- Python-dict assignment: overwrite in place, or append a new key. -/
def alistSet {α : Type} : List (String × α) → String → α → List (String × α)
  | [], k, v => [(k, v)]
  | (k1, v1) :: t, k, v =>
      if k1 = k then (k, v) :: t else (k1, v1) :: alistSet t k v

/-- One entry of `metadata["models"][name]["versions"]`. -/
structure VersionRecord where
  file_path : String
  timestamp : String
  metrics : List (String × ℚ)
  description : String
deriving DecidableEq, Repr

/-- One entry of `metadata["models"]`. -/
structure ModelEntry where
  current_version : String
  versions : List (String × VersionRecord)
deriving DecidableEq, Repr

/-- The persisted `model_metadata.json` catalog (`last_updated` omitted, it
carries no behaviour). -/
structure RegState where
  models : List (String × ModelEntry)
deriving DecidableEq, Repr

/-- The initial metadata structure created by `load_model_metadata` when no
catalog file exists yet: `condition_model` at current version `1.0.0` with an
empty versions map. -/
def defaultRegistry : RegState :=
  { models := [("condition_model", { current_version := "1.0.0", versions := [] })] }

/-- `version.split('.')` with every component read by Python `int`; `none` when
any component is not a (canonical decimal) numeral, where the Python code would
raise `ValueError`. -/
def parseParts (s : String) : Option (List Nat) :=
  (splitOnCharS '.' s).mapM parseNat

/-- `major, minor, patch = map(int, current_version.split('.'))`: succeeds only
on exactly three numeric components. -/
def parse3 (s : String) : Option (Nat × Nat × Nat) :=
  match parseParts s with
  | some [a, b, c] => some (a, b, c)
  | _ => none

/-- Python `<` on two lists of ints (lexicographic, a strict prefix compares
smaller), which is how `register_model_version` compares version parts. -/
def listLt : List Nat → List Nat → Bool
  | [], [] => false
  | [], _ :: _ => true
  | _ :: _, [] => false
  | a :: as, b :: bs => if a < b then true else if b < a then false else listLt as bs

/-- The version-part comparison of `register_model_version`, lifted to version
strings: `a < b` when both parse and the parsed parts compare smaller; `false`
when either side does not parse (the code would raise there instead). -/
def listLtS (a b : String) : Bool :=
  match parseParts a, parseParts b with
  | some x, some y => listLt x y
  | _, _ => false

/-- The larger of two version strings under `listLtS`; `register_model_version`
leaves `current_version` at exactly this value. -/
def vmaxS (a b : String) : String :=
  if listLtS a b then b else a

/-- `os.path.splitext(path)[1]`: the extension (with its dot) of the basename,
ignoring leading dots of the basename. -/
def splitextExt (p : String) : String :=
  let base := (splitOnCharS '/' p).getLastD p
  let cs := base.toList
  let lead := (cs.takeWhile (fun c => c = '.')).length
  let rest := cs.drop lead
  let extRev := rest.reverse.takeWhile (fun c => c ≠ '.')
  if extRev.length = rest.length then "" else String.mk ('.' :: extRev.reverse)

/-- `get_current_version`: `none` models the `ValueError` on an unknown model. -/
def get_current_version (reg : RegState) (model_name : String) : Option String :=
  (alistGet reg.models model_name).map (fun e => e.current_version)

/-- `get_model_path`: resolve an omitted version to the current version, then
look the version up; `none` models the `ValueError`s. -/
def get_model_path (reg : RegState) (model_name : String) (version : Option String) :
    Option String := do
  let e ← alistGet reg.models model_name
  let v := version.getD e.current_version
  let r ← alistGet e.versions v
  pure r.file_path

/-- `get_model_versions`: the list of registered version keys (empty for an
unknown model). -/
def get_model_versions (reg : RegState) (model_name : String) : List String :=
  match alistGet reg.models model_name with
  | some e => e.versions.map (fun p => p.1)
  | none => []

/-- `register_model_version` (file copying is abstracted to the `fileExists`
oracle for the `os.path.exists` check; `ts` is `datetime.now()`'s compact
timestamp; the metrics-CSV side log has no effect on the catalog and is
omitted).  Returns the new catalog together with the `(version, archived_path)`
result, or `none` where the code raises:  a missing artifact, an unparsable
current version during auto-generation, or unparsable version parts in the
current-version comparison. -/
def register_model_version (reg : RegState) (fileExists : String → Bool)
    (model_name model_path : String) (model_version : Option String)
    (metrics : List (String × ℚ)) (description : Option String) (ts : String) :
    Option (RegState × String × String) :=
  if ¬ fileExists model_path then none
  else
    let entry := (alistGet reg.models model_name).getD
      { current_version := "0.0.0", versions := [] }
    -- generate the version when it was not provided
    let genv : Option String :=
      match model_version with
      | some v => some v
      | none =>
          match parse3 entry.current_version with
          | some (major, minor, _) =>
              some (toString major ++ "." ++ toString (minor + 1) ++ ".0")
          | none => none
    match genv with
    | none => none
    | some v =>
      let archived_filename :=
        model_name ++ "_v" ++
          String.mk (v.toList.map (fun c => if c = '.' then '_' else c)) ++
          "_" ++ ts ++ splitextExt model_path
      let archived_model_path := "models/archive/" ++ archived_filename
      let entry1 := { entry with
        versions := alistSet entry.versions v
          { file_path := archived_model_path
            timestamp := ts
            metrics := metrics
            description := description.getD ("Version " ++ v ++ " of " ++ model_name) } }
      match parseParts entry.current_version, parseParts v with
      | some cur, some newp =>
        let entry2 :=
          if listLt cur newp then { entry1 with current_version := v } else entry1
        some ({ models := alistSet reg.models model_name entry2 }, v, archived_model_path)
      | _, _ => none

/-- `initialize_model_registry(initial_model_path)` restricted to its effect on
the catalog: when the given path exists, register it as `condition_model`
version `1.0.0` (exceptions are swallowed by the caller, leaving the catalog
unchanged). -/
def init_model_registry (reg : RegState) (fileExists : String → Bool)
    (path ts : String) : RegState :=
  if fileExists path then
    match register_model_version reg fileExists "condition_model" path (some "1.0.0") []
        (some "Initial condition model") ts with
    | some (reg1, _, _) => reg1
    | none => reg
  else reg

/-- One `RegisterVersion` call with an explicit version. -/
structure RegCall where
  path : String
  version : String
  ts : String
deriving DecidableEq, Repr

/-- A sequence of explicit-version `register_model_version` calls on one model;
a call on which the code raises leaves the persisted catalog unchanged (the
exception fires before `save_model_metadata`). -/
def regSeq (fileExists : String → Bool) (reg : RegState) (model_name : String)
    (calls : List RegCall) : RegState :=
  calls.foldl (fun r c =>
    match register_model_version r fileExists model_name c.path (some c.version) [] none c.ts with
    | some (r1, _, _) => r1
    | none => r) reg

/-- The current version the registry reports for `model_name`, with the same
default (`0.0.0`) that `register_model_version` uses for a model not yet in the
catalog. -/
def currentOf (reg : RegState) (model_name : String) : String :=
  match alistGet reg.models model_name with
  | some e => e.current_version
  | none => "0.0.0"

/-! ## Inference audit trail (`audit_inference.py`) -/

/-- A row of the append-only `inference_audit_log.csv` (the json `metadata`
column carries presentation data only and is omitted). -/
structure InferenceRecord where
  timestamp : String
  filename : String
  model_name : String
  model_version : String
  score : ℚ
  confidence : Option ℚ
  execution_time_ms : ℚ
  fallback_used : Bool
deriving DecidableEq, Repr

/-- `log_inference`: append one row to the audit trail. -/
def log_inference (audit : List InferenceRecord) (r : InferenceRecord) :
    List InferenceRecord :=
  audit ++ [r]

/-- The `score_distribution` counters of `get_inference_stats`. -/
structure ScoreDist where
  b10_19 : Nat
  b20_29 : Nat
  b30_39 : Nat
  b40_50 : Nat
deriving DecidableEq, Repr

/-- The per-record histogram step of `get_inference_stats`: the `if/elif`
bucket chain `1.0 <= s < 2.0`, `2.0 <= s < 3.0`, `3.0 <= s < 4.0`,
`4.0 <= s <= 5.0` (a score outside `[1, 5]` is counted nowhere). -/
def tally_score (d : ScoreDist) (score : ℚ) : ScoreDist :=
  if 1 ≤ score ∧ score < 2 then { d with b10_19 := d.b10_19 + 1 }
  else if 2 ≤ score ∧ score < 3 then { d with b20_29 := d.b20_29 + 1 }
  else if 3 ≤ score ∧ score < 4 then { d with b30_39 := d.b30_39 + 1 }
  else if 4 ≤ score ∧ score ≤ 5 then { d with b40_50 := d.b40_50 + 1 }
  else d

/-- The score histogram `get_inference_stats` computes over the analyzed
records' scores. -/
def score_distribution (scores : List ℚ) : ScoreDist :=
  scores.foldl tally_score { b10_19 := 0, b20_29 := 0, b30_39 := 0, b40_50 := 0 }

/-! ## Feedback drift monitor (`drift_monitor.py`) -/

/-- A row of the append-only `condition_feedback.csv` log. -/
structure FeedbackRecord where
  timestamp : String
  filename : String
  ai_score : ℚ
  user_score : ℚ
  difference : ℚ
  model_version : String
  abs_difference : ℚ
deriving DecidableEq, Repr

/-- The dictionary `log_feedback` returns. -/
structure FeedbackResult where
  logged : Bool
  agreement : Bool
  difference : ℚ
  abs_difference : ℚ
deriving DecidableEq, Repr

/-- `log_feedback`: append one feedback row (`difference = user - ai`,
`abs_difference = |difference|`, timestamp `now`) and report agreement
(`abs_difference <= 0.5`). -/
def log_feedback (fb : List FeedbackRecord) (now filename : String)
    (ai_score user_score : ℚ) (model_version : String) :
    List FeedbackRecord × FeedbackResult :=
  let difference := user_score - ai_score
  let abs_difference := |difference|
  (fb ++ [{ timestamp := now, filename := filename, ai_score := ai_score,
            user_score := user_score, difference := difference,
            model_version := model_version, abs_difference := abs_difference }],
   { logged := true, agreement := decide (abs_difference ≤ 1/2),
     difference := difference, abs_difference := abs_difference })

/-- A row of the derived `condition_drift_log.csv` table.  The source writes
the pandas sample standard deviation (`ddof=1`, `NaN` for a single sample);
`var_drift` holds the corresponding exact sample variance instead (`0` when
`sample_count <= 1`), an executable stand-in that none of the verified
properties inspect. -/
structure DriftRecord where
  date : String
  model_version : String
  mean_drift : ℚ
  median_drift : ℚ
  var_drift : ℚ
  sample_count : Nat
  max_drift : ℚ
  min_drift : ℚ
  drift_direction : String
deriving DecidableEq, Repr

/-- The drift-direction classification of `calculate_daily_drift`:
`mean_drift > 0.1` is conservative, `mean_drift < -0.1` optimistic, otherwise
neutral. -/
def drift_direction (mean_drift : ℚ) : String :=
  if mean_drift > 1/10 then "conservative"
  else if mean_drift < -(1/10) then "optimistic"
  else "neutral"

/-- `pd.to_datetime(timestamp).dt.date` for the `"%Y-%m-%d %H:%M:%S"`
timestamps the monitor writes: the date prefix before the blank. -/
def dateOf (ts : String) : String :=
  (splitOnCharS ' ' ts).headD ts

/-- Insert into a list sorted ascending by the strict comparator `lt`. -/
def insertSorted {α : Type} (lt : α → α → Bool) (x : α) : List α → List α
  | [] => [x]
  | y :: ys => if lt y x then y :: insertSorted lt x ys else x :: y :: ys

/-- Sort ascending by the strict comparator `lt` (insertion sort). -/
def sortBy {α : Type} (lt : α → α → Bool) (l : List α) : List α :=
  l.foldr (insertSorted lt) []

/-- Ascending order on `(date, model_version)` group keys, as pandas `groupby`
iterates them. -/
def keyLt (a b : String × String) : Bool :=
  if strLtB a.1 b.1 then true else if strLtB b.1 a.1 then false else strLtB a.2 b.2

/-- The pandas median of a list of rationals: middle element of the sorted
list, or the mean of the two middle elements (0 for an empty list, which the
monitor never queries). -/
def medianQ (l : List ℚ) : ℚ :=
  let s := sortBy (fun a b => decide (a < b)) l
  let n := s.length
  if n = 0 then 0
  else if n % 2 = 1 then s.getD (n / 2) 0
  else (s.getD (n / 2 - 1) 0 + s.getD (n / 2) 0) / 2

/-- Maximum of a list of rationals (0 for an empty list). -/
def qmaxList : List ℚ → ℚ
  | [] => 0
  | x :: xs => xs.foldl max x

/-- Minimum of a list of rationals (0 for an empty list). -/
def qminList : List ℚ → ℚ
  | [] => 0
  | x :: xs => xs.foldl min x

/-- The `DriftRecord` `calculate_daily_drift` builds for one
`(date, model_version)` group `g` (see `DriftRecord` for the `var_drift`
convention). -/
def mkDrift (key : String × String) (g : List FeedbackRecord) : DriftRecord :=
  let ds := g.map (fun r => r.difference)
  let n := ds.length
  let m := ds.sum / (n : ℚ)
  { date := key.1
    model_version := key.2
    mean_drift := m
    median_drift := medianQ ds
    var_drift := if n ≤ 1 then 0 else (ds.map (fun x => (x - m) ^ 2)).sum / ((n : ℚ) - 1)
    sample_count := n
    max_drift := qmaxList ds
    min_drift := qminList ds
    drift_direction := drift_direction m }

/-- The full drift recomputation over the feedback log: group rows by
`(date(timestamp), model_version)` (keys in pandas' sorted group order) and
aggregate each group.  Every row has a concrete `difference`, so the `dropna`
filter of the source never removes anything. -/
def driftRecords (fb : List FeedbackRecord) : List DriftRecord :=
  (sortBy keyLt ((fb.map (fun r => (dateOf r.timestamp, r.model_version))).dedup)).map
    (fun k => mkDrift k (fb.filter (fun r =>
      dateOf r.timestamp = k.1 ∧ r.model_version = k.2)))

/-- The drift monitor's durable state: the feedback log and the derived drift
table. -/
structure DriftSys where
  feedback : List FeedbackRecord
  drift : List DriftRecord
deriving DecidableEq, Repr

/-- `calculate_daily_drift`: on an empty feedback log return `false` and leave
the drift table untouched; otherwise recompute all drift rows from the
feedback log and replace the drift table with them (`to_csv` overwrites the
file), returning `true`; when no rows were produced, return `false` and keep
the previous table. -/
def calculate_daily_drift (s : DriftSys) : DriftSys × Bool :=
  if s.feedback = [] then (s, false)
  else
    let recs := driftRecords s.feedback
    if recs = [] then (s, false)
    else ({ s with drift := recs }, true)

/-- The ten-sample scenario of the drift-classification property: ten feedback
rows logged on one day for one version with `ai_score = 3.4`,
`user_score = 4.0`. -/
def tenFeedback : List FeedbackRecord :=
  (List.replicate 10 ()).foldl
    (fun fb _ => (log_feedback fb "2025-06-01 12:00:00" "img.jpg" (17/5) 4 "2.0.0").1) []

/-! ## Fallback-aware inference service
(`condition_inference.py` of `terrafusion_complete_system`, with the
deployment-event plumbing of `model_deployment_logger.py` and the audit append
of the `analyze_property_condition` route) -/

/-- The durable state the inference call graph touches: the registry catalog,
the deployment status, the deployment event log and the inference audit
trail. -/
structure InfSys where
  reg : RegState
  status : DeploymentStatusState
  events : List DeploymentEvent
  audit : List InferenceRecord

/-- `log_deployment_event`: append one event row; a `deployment` or `rollback`
event additionally routes into `DeploymentStatus.update_deployment`. -/
def log_deployment_event (sys : InfSys) (now event_type model version message : String) :
    InfSys :=
  let sys1 := { sys with events := sys.events ++
    [{ timestamp := now, event_type := event_type, model := model,
       version := version, message := message }] }
  if event_type = "deployment" ∨ event_type = "rollback" then
    { sys1 with status := update_deployment sys1.status model version now "active" }
  else sys1

/-- `configure_fallback`: store the fallback configuration, then log one
`config_change` event carrying the (unchanged) current deployment version.
The registry-membership warning the source prints for an unknown version has
no state effect and is omitted. -/
def configure_fallback (sys : InfSys) (now : String) (enabled : Bool)
    (fallback_version : Option String) : InfSys :=
  let sys1 := { sys with status := set_fallback_config sys.status enabled fallback_version }
  log_deployment_event sys1 now "config_change" "condition_model"
    sys1.status.current_deployment.version "Fallback configuration updated"

/-- `ConditionScorer._fallback_scoring`: the dependency-free heuristic tier.
Its input is the outcome of reading the image: `none` when any step raises
(missing or unreadable image), otherwise the mean brightness and the standard
deviation (contrast) of the pixel array. -/
def fallback_scoring (stats : Option (ℚ × ℚ)) : ℚ :=
  match stats with
  | none => 3
  | some (brightness, contrast) =>
      let score_brightness := brightness / 255 * (5/2)
      let score_contrast := min contrast 80 / 80 * (5/2)
      let score := score_brightness + score_contrast
      max 1 (min 5 score)

/-- The environment of one inference-service call: the durable state plus the
oracles for the effectful steps (`loadOk p`: `torch.load(p)` succeeds;
`fileExists`: `os.path.exists`; `runModel w img`: outcome of running the
network whose weights were loaded from artifact `w` on image `img`, `none`
when it raises; `imageStats img`: outcome of the heuristic tier's image read;
`now`/`archTs`: wall-clock timestamps; `execMs`: the measured execution
time). -/
structure InfEnv where
  sys : InfSys
  loadOk : String → Bool
  fileExists : String → Bool
  runModel : String → String → Option ℚ
  imageStats : String → Option (ℚ × ℚ)
  now : String
  archTs : String
  execMs : ℚ

/-- The in-memory fields of a constructed `ConditionScorer`: `weights` names
the artifact whose state dict `self.model` currently holds (`none`: only the
pretrained base), `fallback_model` the artifact preloaded into
`self.fallback_model`. -/
structure Scorer where
  version : Option String
  model_path : Option String
  model_loaded : Bool
  using_fallback : Bool
  fallback_model : Option String
  weights : Option String

/-- Outcome of the `try` block of `ConditionScorer.__init__` that resolves and
loads the versioned primary model: on failure it carries `self.version` and
`self.model_path` as they stand when the exception fires. -/
inductive PrimaryTry
  | ok (v p : String)
  | failed (ver mp : Option String)

/-- Resolve the target version (the explicit `requested` version, else the
registry's current version), resolve its artifact path, and attempt
`torch.load`. -/
def tryPrimary (env : InfEnv) (requested : Option String) : PrimaryTry :=
  let attempt := fun (v : String) =>
    match get_model_path env.sys.reg "condition_model" (some v) with
    | none => PrimaryTry.failed (some v) none
    | some p => if env.loadOk p then .ok v p else .failed (some v) (some p)
  match requested with
  | some v => attempt v
  | none =>
    match get_current_version env.sys.reg "condition_model" with
    | none => .failed none none
    | some v => attempt v

/-- The default local weights path used when the versioned load fails
(`models/condition_model.pth` under the working directory). -/
def defaultModelPath : String := "models/condition_model.pth"

/-- The last load tier of `ConditionScorer.__init__`: with no versioned or
fallback model loaded, fall back to the default local path; a successful load
from it logs a `deployment` event and registers the file through
`init_model_registry` (the embedded service constructs the scorer with
`model_path=None`, so the path is never inside the registry directory). -/
def scorerTier3 (env : InfEnv) (sys : InfSys) (requested ver : Option String) :
    Scorer × InfSys :=
  if env.fileExists defaultModelPath then
    if env.loadOk defaultModelPath then
      let sys1 := log_deployment_event sys env.now "deployment" "condition_model"
        (pyOr requested "1.0.0") "Model loaded from path"
      let sys2 :=
        if requested = none then
          { sys1 with reg := init_model_registry sys1.reg env.fileExists defaultModelPath env.archTs }
        else sys1
      (⟨ver, some defaultModelPath, true, false, none, some defaultModelPath⟩, sys2)
    else
      let sys1 := log_deployment_event sys env.now "error" "condition_model"
        (pyOr requested "unknown") "Error loading model from path"
      (⟨ver, some defaultModelPath, false, false, none, none⟩, sys1)
  else
    (⟨ver, some defaultModelPath, false, false, none, none⟩, sys)

/-- `ConditionScorer.__init__` for the service call pattern
(`model_path=None`, versioning and deployment logger available): load the
versioned primary model, preloading the resolved fallback model on success; on
failure log an `error` event, attempt the resolved fallback version (logging
`recovery` on success), and finally fall back to the default local path. -/
def scorerInit (env : InfEnv) (requested : Option String) : Scorer × InfSys :=
  match tryPrimary env requested with
  | .ok v p =>
    let sys1 := log_deployment_event env.sys env.now "deployment" "condition_model" v
      "Model loaded successfully"
    let fbm : Option String :=
      match get_fallback_model_version sys1.status with
      | some fbv =>
        if fbv ≠ "" ∧ fbv ≠ v then
          match get_model_path sys1.reg "condition_model" (some fbv) with
          | some pf => if env.loadOk pf then some pf else none
          | none => none
        else none
      | none => none
    (⟨some v, some p, true, false, fbm, some p⟩, sys1)
  | .failed ver mp =>
    let sys1 := log_deployment_event env.sys env.now "error" "condition_model"
      (pyOr ver "unknown") "Error loading model"
    match get_fallback_model_version sys1.status with
    | some fbv =>
      if fbv ≠ "" then
        match get_model_path sys1.reg "condition_model" (some fbv) with
        | some pf =>
          if env.loadOk pf then
            let sys2 := log_deployment_event sys1 env.now "recovery" "condition_model" fbv
              "Recovered using fallback model"
            (⟨some fbv, mp, true, true, none, some pf⟩, sys2)
          else scorerTier3 env sys1 requested ver
        | none => scorerTier3 env sys1 requested ver
      else scorerTier3 env sys1 requested ver
    | none => scorerTier3 env sys1 requested ver

/-- `ConditionScorer.predict_condition`: primary weights, then the preloaded
fallback model (with `error`/`recovery` events), then the heuristic tier — no
branch escapes without a score. -/
def predict_condition (env : InfEnv) (sys : InfSys) (sc : Scorer) (image_path : String) :
    ℚ × InfSys :=
  if ¬ sc.model_loaded then (fallback_scoring (env.imageStats image_path), sys)
  else
    match sc.weights with
    | none =>
      -- unreachable for scorers produced by `scorerInit`: `model_loaded`
      -- implies loaded weights; kept total on the heuristic tier
      (fallback_scoring (env.imageStats image_path), sys)
    | some w =>
      match env.runModel w image_path with
      | some s => (s, sys)
      | none =>
        let sys1 := log_deployment_event sys env.now "error" "condition_model"
          (pyOr sc.version "unknown") "Error during prediction"
        match sc.fallback_model with
        | some pf =>
          match env.runModel pf image_path with
          | some s =>
            let sys2 := log_deployment_event sys1 env.now "recovery" "condition_model"
              (pyOr (get_fallback_model_version sys1.status) "unknown")
              "Successfully used fallback model for prediction"
            (s, sys2)
          | none => (fallback_scoring (env.imageStats image_path), sys1)
        | none => (fallback_scoring (env.imageStats image_path), sys1)

/-- Python `round(x, 1)` (the source's rounding of the returned score); exact
midpoints round half-up here where Python rounds half-even, a difference none
of the verified properties touch. -/
def round1 (x : ℚ) : ℚ :=
  (⌊10 * x + 1/2⌋ : ℚ) / 10

/-- `Path(p).name`. -/
def baseName (p : String) : String :=
  (splitOnCharS '/' p).getLastD p

/-- The service entry point `analyze_property_condition`, restricted to its
state-relevant steps: construct a `ConditionScorer()`, predict, round and
clamp the score to `[1, 5]`, and append exactly one audit record carrying the
version actually used (`scorer.version or "2.0.0"`) and the fallback flag
(presentation output — category text and feature scores — is omitted). -/
def analyze_property_condition (env : InfEnv) (image_path : String) : InfSys × ℚ :=
  let init := scorerInit env none
  let sc := init.1
  let pred := predict_condition env init.2 sc image_path
  let model_version := pyOr sc.version "2.0.0"
  let score := max 1 (min 5 (round1 pred.1))
  let rec0 : InferenceRecord :=
    { timestamp := env.now, filename := baseName image_path,
      model_name := "condition_model", model_version := model_version,
      score := score, confidence := none, execution_time_ms := env.execMs,
      fallback_used := sc.using_fallback }
  let sys3 := { pred.2 with audit := log_inference pred.2.audit rec0 }
  (sys3, score)

/-! ## Concrete test states -/

/-- A catalog with `condition_model` current at `2.0.0` and two registered
versions. -/
def regC1 : RegState :=
  { models := [("condition_model",
      { current_version := "2.0.0",
        versions :=
          [("2.0.0", { file_path := "a.pth", timestamp := "t", metrics := [], description := "" }),
           ("1.0.0", { file_path := "b.pth", timestamp := "t", metrics := [], description := "" })] })] }

/-- A deployment status with fallback enabled and explicitly configured to
`1.0.0`. -/
def statusC1 : DeploymentStatusState :=
  { current_deployment :=
      { model := "condition_model", version := "2.0.0", timestamp := "t", status := "active" }
    fallback_enabled := true
    fallback_version := some "1.0.0"
    deployment_history := [] }

/-- An inference environment where the current version's artifact (`a.pth`)
fails to load and the fallback version's artifact (`b.pth`) loads. -/
def envC1 : InfEnv :=
  { sys := { reg := regC1, status := statusC1, events := [], audit := [] }
    loadOk := fun p => p = "b.pth"
    fileExists := fun _ => false
    runModel := fun _ _ => some 4
    imageStats := fun _ => none
    now := "t1", archTs := "ts", execMs := 12 }

/-- A catalog with `condition_model` current at `1.2.3`. -/
def reg123 : RegState :=
  { models := [("condition_model", { current_version := "1.2.3", versions := [] })] }

/-! ## Helper lemmas -/

theorem update_deployment_history (st : DeploymentStatusState) (m v ts s : String) :
    (update_deployment st m v ts s).deployment_history =
      (st.current_deployment :: st.deployment_history).take 10 := by
  simp only [update_deployment]
  split
  · rfl
  · next h => rw [List.take_of_length_le (Nat.le_of_not_lt h)]

theorem take_append_take {α : Type} (n : ℕ) (A B : List α) :
    (A ++ B.take n).take n = (A ++ B).take n := by
  rw [List.take_append_eq_append_take, List.take_append_eq_append_take, List.take_take,
    Nat.min_eq_left (Nat.sub_le _ _)]

theorem pushedStack_length (calls : List (String × String × String)) :
    ∀ st : DeploymentStatusState, (pushedStack st calls).length = calls.length := by
  induction calls with
  | nil => intro st; rfl
  | cons c rest ih =>
    intro st
    obtain ⟨m, v, ts⟩ := c
    simp [pushedStack, ih]

theorem deploySeq_history (calls : List (String × String × String)) :
    ∀ st : DeploymentStatusState, calls ≠ [] →
      (deploySeq st calls).deployment_history =
        (pushedStack st calls ++ st.deployment_history).take 10 := by
  induction calls with
  | nil => intro _ h; exact absurd rfl h
  | cons c rest ih =>
    intro st _
    obtain ⟨m, v, ts⟩ := c
    by_cases hr : rest = []
    · subst hr
      simp [deploySeq, pushedStack, update_deployment_history]
    · have hstep := ih (update_deployment st m v ts "active") hr
      simp only [deploySeq, pushedStack]
      rw [hstep, update_deployment_history, take_append_take, List.append_assoc]
      rfl

theorem clamp_score_bounds (x : ℚ) : 1 ≤ max 1 (min 5 x) ∧ max 1 (min 5 x) ≤ 5 :=
  ⟨le_max_left 1 _, max_le (by norm_num) (min_le_left 5 x)⟩

/-! ## C2: fallback-version resolution -/

/-- C2: `ResolveFallbackVersion` returns `none` when fallback is disabled, the
explicitly configured (truthy) fallback version when one is set, and otherwise
the version of the most recent deployment-history entry or `none` on empty
history; and from the default status with fallback enabled and no explicit
fallback version, `Deploy("1.0.0")` followed by `Deploy("2.0.0")` resolves to
`"1.0.0"`. -/
theorem C2_resolve_fallback_version :
    (∀ st : DeploymentStatusState, st.fallback_enabled = false →
      get_fallback_model_version st = none) ∧
    (∀ (st : DeploymentStatusState) (v : String), st.fallback_enabled = true →
      st.fallback_version = some v → v ≠ "" → get_fallback_model_version st = some v) ∧
    (∀ st : DeploymentStatusState, st.fallback_enabled = true → st.fallback_version = none →
      get_fallback_model_version st = st.deployment_history.head?.map Deployment.version) ∧
    (∀ t t1 t2 : String,
      get_fallback_model_version
        (deploySeq (set_fallback_config (default_status t) true none)
          [("condition_model", "1.0.0", t1), ("condition_model", "2.0.0", t2)]) =
        some "1.0.0") := by
  refine ⟨?_, ?_, ?_, ?_⟩
  · intro st h
    simp [get_fallback_model_version, h]
  · intro st v he hv hne
    simp [get_fallback_model_version, he, hv, pyTruthy, hne]
  · intro st he hv
    simp only [get_fallback_model_version, he, hv, pyTruthy]
    cases st.deployment_history <;> simp
  · intro t t1 t2
    rfl

theorem C2_resolve_fallback_version_witness :
    get_fallback_model_version (default_status "t0") = none ∧
    get_fallback_model_version
      (set_fallback_config (default_status "t0") true (some "1.2.0")) = some "1.2.0" ∧
    get_fallback_model_version (set_fallback_config (default_status "t0") true none) = none ∧
    get_fallback_model_version
      (deploySeq (set_fallback_config (default_status "t0") true none)
        [("condition_model", "1.0.0", "t1"), ("condition_model", "2.0.0", "t2")]) =
      some "1.0.0" :=
  ⟨C2_resolve_fallback_version.1 _ rfl,
   C2_resolve_fallback_version.2.1 _ _ rfl rfl (by decide),
   (C2_resolve_fallback_version.2.2.1 _ rfl rfl).trans rfl,
   C2_resolve_fallback_version.2.2.2 "t0" "t1" "t2"⟩

/-! ## C5: bounded most-recent-first deployment history -/

/-- C5: every `Deploy` pushes the previous current deployment onto the front
of the history truncated to 10 entries, a run of deploys leaves the history
equal to the 10 most recent prior current deployments (most-recent-first,
continuing into the old history), and after 15 deploys from any starting state
the history has exactly 10 entries. -/
theorem C5_history_bound :
    (∀ (st : DeploymentStatusState) (m v ts s : String),
      (update_deployment st m v ts s).deployment_history =
        (st.current_deployment :: st.deployment_history).take 10) ∧
    (∀ (st : DeploymentStatusState) (calls : List (String × String × String)),
      calls ≠ [] →
      (deploySeq st calls).deployment_history =
        (pushedStack st calls ++ st.deployment_history).take 10) ∧
    (∀ (st : DeploymentStatusState) (calls : List (String × String × String)),
      calls.length = 15 →
      (deploySeq st calls).deployment_history.length = 10) := by
  refine ⟨update_deployment_history, fun st calls => deploySeq_history calls st, ?_⟩
  intro st calls hlen
  have hne : calls ≠ [] := by
    intro h; rw [h] at hlen; exact absurd hlen (by decide)
  rw [deploySeq_history calls st hne, List.length_take, List.length_append,
    pushedStack_length, hlen]
  omega

theorem C5_history_bound_witness :
    (deploySeq (default_status "t")
      (List.replicate 15 ("condition_model", "3.0.0", "t"))).deployment_history.length = 10 :=
  C5_history_bound.2.2 (default_status "t") (List.replicate 15 ("condition_model", "3.0.0", "t"))
    (by simp)

/-! ## C9: idempotent drift recomputation -/

/-- C9: recomputing daily drift twice over an unchanged feedback log yields
the same state and result as recomputing once — the recomputation replaces the
derived drift table as a pure function of the feedback log. -/
theorem C9_recompute_idempotent (s : DriftSys) :
    calculate_daily_drift (calculate_daily_drift s).1 = calculate_daily_drift s := by
  unfold calculate_daily_drift
  by_cases h : s.feedback = []
  · simp [h]
  · by_cases h2 : driftRecords s.feedback = []
    · simp [h, h2]
    · simp [h, h2]

/-! ## C10: total heuristic scorer -/

/-- C10: the last-resort heuristic scorer is total — it returns a score in
`[1, 5]` for every image-read outcome, and returns exactly the neutral
constant 3 when reading the image fails. -/
theorem C10_heuristic_total :
    (∀ stats : Option (ℚ × ℚ),
      1 ≤ fallback_scoring stats ∧ fallback_scoring stats ≤ 5) ∧
    fallback_scoring none = 3 := by
  refine ⟨?_, rfl⟩
  intro stats
  match stats with
  | none => exact ⟨by norm_num [fallback_scoring], by norm_num [fallback_scoring]⟩
  | some (b, c) => exact clamp_score_bounds _

/-! ## C4: every status mutation is paired with one event -/

/-- C4: the tracker's mutating entry points each append exactly one deployment
event with the appropriate type.  `Deploy` is realised by
`log_deployment_event` with a `deployment` event, which appends the event and
routes into `update_deployment`; `SetFallback` is realised by
`configure_fallback`, which stores the configuration and appends one
`config_change` event — neither mutation completes without its event. -/
theorem C4_event_per_mutation :
    (∀ (sys : InfSys) (now model version msg : String),
      (log_deployment_event sys now "deployment" model version msg).events =
        sys.events ++
          [{ timestamp := now, event_type := "deployment", model := model,
             version := version, message := msg }] ∧
      (log_deployment_event sys now "deployment" model version msg).status =
        update_deployment sys.status model version now "active") ∧
    (∀ (sys : InfSys) (now : String) (enabled : Bool) (fv : Option String),
      (configure_fallback sys now enabled fv).events =
        sys.events ++
          [{ timestamp := now, event_type := "config_change", model := "condition_model",
             version := sys.status.current_deployment.version,
             message := "Fallback configuration updated" }] ∧
      (configure_fallback sys now enabled fv).status =
        set_fallback_config sys.status enabled fv) := by
  constructor
  · intro sys now model version msg
    constructor <;> simp [log_deployment_event]
  · intro sys now enabled fv
    constructor <;> simp [configure_fallback, log_deployment_event, set_fallback_config]

/-! ## C7: histogram bucket boundaries -/

/-- C7: the audit score histogram counts with half-open buckets
`[1,2) [2,3) [3,4)` and a doubly-closed top bucket `[4,5]`: a score of exactly
5 lands in `4.0-5.0`, a score of exactly 2 lands in `2.0-2.9` and not in
`1.0-1.9`. -/
theorem C7_histogram_buckets :
    (∀ d : ScoreDist, tally_score d 5 = { d with b40_50 := d.b40_50 + 1 }) ∧
    (∀ d : ScoreDist, tally_score d 2 = { d with b20_29 := d.b20_29 + 1 }) ∧
    (∀ d : ScoreDist, (tally_score d 2).b10_19 = d.b10_19) ∧
    (∀ (d : ScoreDist) (s : ℚ), (tally_score d s).b10_19 = d.b10_19 + 1 ↔ 1 ≤ s ∧ s < 2) ∧
    (∀ (d : ScoreDist) (s : ℚ), (tally_score d s).b20_29 = d.b20_29 + 1 ↔ 2 ≤ s ∧ s < 3) ∧
    (∀ (d : ScoreDist) (s : ℚ), (tally_score d s).b30_39 = d.b30_39 + 1 ↔ 3 ≤ s ∧ s < 4) ∧
    (∀ (d : ScoreDist) (s : ℚ), (tally_score d s).b40_50 = d.b40_50 + 1 ↔ 4 ≤ s ∧ s ≤ 5) := by
  refine ⟨?_, ?_, ?_, ?_, ?_, ?_, ?_⟩
  · intro d; norm_num [tally_score]
  · intro d; norm_num [tally_score]
  · intro d; norm_num [tally_score]
  all_goals
    intro d s
    unfold tally_score
    split_ifs with h1 h2 h3 h4 <;>
      simp_all <;> (intros; linarith)

/-! ## C8: drift direction classification -/

/-- C8: drift of a feedback record is `user_score - ai_score`; a group's
direction is `conservative` for mean drift above 0.1, `optimistic` below
-0.1, else `neutral`; and ten feedback rows with `user_score = 4`,
`ai_score = 3.4` on one day and one version aggregate to one drift row with
mean drift `0.6` and direction `conservative`. -/
theorem C8_drift_classification :
    (∀ m : ℚ,
      (drift_direction m = "conservative" ↔ 1/10 < m) ∧
      (drift_direction m = "optimistic" ↔ m < -(1/10)) ∧
      (drift_direction m = "neutral" ↔ -(1/10) ≤ m ∧ m ≤ 1/10)) ∧
    (∀ (fb : List FeedbackRecord) (now fn : String) (ai user : ℚ) (ver : String),
      (log_feedback fb now fn ai user ver).1 =
        fb ++ [{ timestamp := now, filename := fn, ai_score := ai, user_score := user,
                 difference := user - ai, model_version := ver,
                 abs_difference := |user - ai| }]) ∧
    ((driftRecords tenFeedback).map
        (fun r => (r.date, r.model_version, r.mean_drift, r.sample_count, r.drift_direction)) =
      [("2025-06-01", "2.0.0", 3/5, 10, "conservative")]) := by
  refine ⟨?_, ?_, ?_⟩
  · intro m
    refine ⟨?_, ?_, ?_⟩ <;>
      (unfold drift_direction; split_ifs <;> simp_all <;> (intros; linarith))
  · intro fb now fn ai user ver
    rfl
  · have h1 : driftRecords tenFeedback =
        [mkDrift ("2025-06-01", "2.0.0") tenFeedback] := by rfl
    have hds : tenFeedback.map (fun r => r.difference) =
        List.replicate 10 ((4 : ℚ) - 17/5) := by rfl
    have hm : ((List.replicate 10 ((4 : ℚ) - 17/5)).sum) /
        ((List.replicate 10 ((4 : ℚ) - 17/5)).length : ℚ) = 3/5 := by
      simp [List.sum_replicate]
      norm_num
    rw [h1]
    simp only [List.map_cons, List.map_nil, mkDrift, hds]
    rw [hm]
    have hdir : drift_direction (3/5) = "conservative" := by
      unfold drift_direction
      norm_num
    rw [hdir]
    simp

/-! ## C3: registry current-version monotonicity -/

theorem listLt_irrefl : ∀ l : List Nat, listLt l l = false := by
  intro l
  induction l with
  | nil => rfl
  | cons a t ih => simp [listLt, ih]

theorem listLt_trans : ∀ a b c : List Nat,
    listLt a b = true → listLt b c = true → listLt a c = true := by
  intro a
  induction a with
  | nil =>
    intro b c hab hbc
    cases b with
    | nil => simp [listLt] at hab
    | cons y ys =>
      cases c with
      | nil => simp [listLt] at hbc
      | cons z zs => rfl
  | cons x xs ih =>
    intro b c hab hbc
    cases b with
    | nil => simp [listLt] at hab
    | cons y ys =>
      cases c with
      | nil => simp [listLt] at hbc
      | cons z zs =>
        simp only [listLt] at hab hbc ⊢
        by_cases hxy : x < y
        · by_cases hyz : y < z
          · simp [show x < z by omega]
          · simp only [if_neg hyz] at hbc
            by_cases hzy : z < y
            · simp [hzy] at hbc
            · have : y = z := by omega
              simp [show x < z by omega]
        · simp only [if_neg hxy] at hab
          by_cases hyx : y < x
          · simp [hyx] at hab
          · have hxyeq : x = y := by omega
            by_cases hyz : y < z
            · simp [show x < z by omega]
            · simp only [if_neg hyz] at hbc
              by_cases hzy : z < y
              · simp [hzy] at hbc
              · have hyzeq : y = z := by omega
                rw [if_neg hyx] at hab
                rw [if_neg hzy] at hbc
                subst hxyeq
                subst hyzeq
                simp only [listLt, if_neg hxy, if_neg hyx]
                exact ih ys zs hab hbc

theorem listLt_conn : ∀ a b : List Nat,
    listLt a b = false → listLt b a = false → a = b := by
  intro a
  induction a with
  | nil =>
    intro b hab _
    cases b with
    | nil => rfl
    | cons y ys => simp [listLt] at hab
  | cons x xs ih =>
    intro b hab hba
    cases b with
    | nil => simp [listLt] at hba
    | cons y ys =>
      simp only [listLt] at hab hba
      by_cases hxy : x < y
      · simp [hxy] at hab
      · by_cases hyx : y < x
        · simp [hyx] at hba
        · have hxyeq : x = y := by omega
          subst hxyeq
          simp only [if_neg hxy, if_neg hyx] at hab hba
          rw [ih ys hab hba]

theorem listLtS_irrefl (a : String) (h : (parseParts a).isSome) :
    listLtS a a = false := by
  obtain ⟨x, hx⟩ := Option.isSome_iff_exists.mp h
  simp [listLtS, hx, listLt_irrefl]

theorem listLtS_asymm {a b : String} (h : listLtS a b = true) : listLtS b a = false := by
  unfold listLtS at h ⊢
  cases hpa : parseParts a with
  | none => simp [hpa] at h
  | some x =>
    cases hpb : parseParts b with
    | none => simp [hpa, hpb] at h
    | some y =>
      simp only [hpa, hpb] at h ⊢
      by_contra hc
      have hyx : listLt y x = true := by
        cases hv : listLt y x
        · exact absurd hv hc
        · rfl
      have := listLt_trans x y x h hyx
      rw [listLt_irrefl] at this
      simp at this

theorem listLtS_not_lt_chain {a b c : String}
    (hpa : (parseParts a).isSome) (hpb : (parseParts b).isSome) (hpc : (parseParts c).isSome)
    (hab : listLtS a b = false) (hbc : listLtS b c = false) : listLtS a c = false := by
  obtain ⟨x, hx⟩ := Option.isSome_iff_exists.mp hpa
  obtain ⟨y, hy⟩ := Option.isSome_iff_exists.mp hpb
  obtain ⟨z, hz⟩ := Option.isSome_iff_exists.mp hpc
  simp only [listLtS, hx, hy, hz] at hab hbc ⊢
  by_contra hc
  have hxz : listLt x z = true := by
    cases hv : listLt x z
    · exact absurd hv hc
    · rfl
  by_cases hyx : listLt y x = true
  · have := listLt_trans y x z hyx hxz
    rw [this] at hbc
    simp at hbc
  · have hyx' : listLt y x = false := by
      cases hv : listLt y x
      · rfl
      · exact absurd hv hyx
    have : x = y := listLt_conn x y hab hyx'
    subst this
    rw [hxz] at hbc
    simp at hbc

theorem parse_vmaxS {a b : String}
    (ha : (parseParts a).isSome) (hb : (parseParts b).isSome) :
    (parseParts (vmaxS a b)).isSome := by
  unfold vmaxS
  split
  · exact hb
  · exact ha

theorem vmaxS_not_lt_left (a b : String)
    (ha : (parseParts a).isSome) : listLtS (vmaxS a b) a = false := by
  unfold vmaxS
  split
  · next h => exact listLtS_asymm h
  · exact listLtS_irrefl a ha

theorem parse_foldl_vmaxS : ∀ (vs : List String) (a : String),
    (parseParts a).isSome → (∀ v ∈ vs, (parseParts v).isSome) →
    (parseParts (vs.foldl vmaxS a)).isSome := by
  intro vs
  induction vs with
  | nil => intro a ha _; exact ha
  | cons v t ih =>
    intro a ha hvs
    exact ih (vmaxS a v) (parse_vmaxS ha (hvs v (by simp)))
      (fun w hw => hvs w (by simp [hw]))

theorem foldl_vmaxS_not_lt : ∀ (vs : List String) (a : String),
    (parseParts a).isSome → (∀ v ∈ vs, (parseParts v).isSome) →
    listLtS (vs.foldl vmaxS a) a = false := by
  intro vs
  induction vs with
  | nil => intro a ha _; exact listLtS_irrefl a ha
  | cons v t ih =>
    intro a ha hvs
    have hv : (parseParts v).isSome := hvs v (by simp)
    have htail : ∀ w ∈ t, (parseParts w).isSome := fun w hw => hvs w (by simp [hw])
    have h1 : listLtS (t.foldl vmaxS (vmaxS a v)) (vmaxS a v) = false :=
      ih (vmaxS a v) (parse_vmaxS ha hv) htail
    have h2 : listLtS (vmaxS a v) a = false := vmaxS_not_lt_left a v ha
    exact listLtS_not_lt_chain (parse_foldl_vmaxS t (vmaxS a v) (parse_vmaxS ha hv) htail)
      (parse_vmaxS ha hv) ha h1 h2

theorem alistGet_alistSet_self {α : Type} (l : List (String × α)) (k : String) (v : α) :
    alistGet (alistSet l k v) k = some v := by
  induction l with
  | nil => simp [alistGet, alistSet, List.find?]
  | cons p t ih =>
    obtain ⟨k1, v1⟩ := p
    by_cases h : k1 = k
    · simp [alistSet, h, alistGet, List.find?]
    · simp only [alistSet, if_neg h]
      simpa [alistGet, List.find?, h] using ih

theorem currentOf_set (reg : RegState) (name : String) (e : ModelEntry) :
    currentOf { models := alistSet reg.models name e } name = e.current_version := by
  simp [currentOf, alistGet_alistSet_self]

theorem register_explicit_eq (reg : RegState) (fe : String → Bool)
    (name path v ts : String) (metrics : List (String × ℚ)) (desc : Option String)
    (hfe : fe path = true)
    (hv : (parseParts v).isSome)
    (hcur : (parseParts (currentOf reg name)).isSome) :
    ∃ res : RegState × String × String,
      register_model_version reg fe name path (some v) metrics desc ts = some res ∧
      res.2.1 = v ∧
      currentOf res.1 name = vmaxS (currentOf reg name) v := by
  obtain ⟨pv, hpv⟩ := Option.isSome_iff_exists.mp hv
  obtain ⟨pc, hpc⟩ := Option.isSome_iff_exists.mp hcur
  have hcv : ((alistGet reg.models name).getD
      { current_version := "0.0.0", versions := [] }).current_version =
      currentOf reg name := by
    unfold currentOf
    cases alistGet reg.models name <;> rfl
  have hpc1 : parseParts ((alistGet reg.models name).getD
      { current_version := "0.0.0", versions := [] }).current_version = some pc := by
    rw [hcv]; exact hpc
  unfold register_model_version
  rw [hfe]
  simp only [Bool.not_true, if_false]
  rw [hpc1, hpv]
  refine ⟨_, rfl, rfl, ?_⟩
  rw [currentOf_set, apply_ite ModelEntry.current_version]
  simp only [hcv]
  unfold vmaxS
  rw [show listLtS (currentOf reg name) v = listLt pc pv from by unfold listLtS; rw [hpc, hpv]]

theorem regSeq_cons (fe : String → Bool) (reg : RegState) (name : String)
    (c : RegCall) (cs : List RegCall) :
    regSeq fe reg name (c :: cs) =
      regSeq fe
        (match register_model_version reg fe name c.path (some c.version) [] none c.ts with
         | some (r1, _, _) => r1
         | none => reg) name cs := rfl

theorem regSeq_currentOf (fe : String → Bool) (name : String) :
    ∀ (calls : List RegCall) (reg : RegState),
      (∀ c ∈ calls, fe c.path = true) →
      (∀ c ∈ calls, (parseParts c.version).isSome) →
      (parseParts (currentOf reg name)).isSome →
      currentOf (regSeq fe reg name calls) name =
        calls.foldl (fun a c => vmaxS a c.version) (currentOf reg name) := by
  intro calls
  induction calls with
  | nil => intro reg _ _ _; rfl
  | cons c cs ih =>
    intro reg hfe hpv hcur
    obtain ⟨res, hres, hv1, hcur1⟩ :=
      register_explicit_eq reg fe name c.path c.version c.ts [] none
        (hfe c (by simp)) (hpv c (by simp)) hcur
    obtain ⟨reg1, v1, arch⟩ := res
    rw [regSeq_cons, hres]
    have hnext : currentOf (regSeq fe reg1 name cs) name =
        cs.foldl (fun a c => vmaxS a c.version) (currentOf reg1 name) :=
      ih reg1 (fun w hw => hfe w (by simp [hw])) (fun w hw => hpv w (by simp [hw]))
        (by rw [hcur1]; exact parse_vmaxS hcur (hpv c (by simp)))
    rw [hnext, hcur1]
    rfl

/-- C3 (amended): for every sequence of `RegisterVersion` calls with valid
explicit versions on one model, `currentVersion` is monotone — a single
registration changes it exactly when the new version is strictly greater under
numeric part ordering, after the whole sequence it equals the maximum of the
prior `currentVersion` and all registered versions (hence the greatest version
registered whenever that is at least the prior current, e.g. for a model entry
freshly initialised at `0.0.0`), and it never decreases. -/
theorem C3_registry_monotonicity (fe : String → Bool) (reg : RegState) (name : String)
    (calls : List RegCall)
    (hfe : ∀ c ∈ calls, fe c.path = true)
    (hpv : ∀ c ∈ calls, (parseParts c.version).isSome)
    (hcur : (parseParts (currentOf reg name)).isSome) :
    (∀ c : RegCall, fe c.path = true → (parseParts c.version).isSome →
      currentOf (regSeq fe reg name [c]) name =
        (if listLtS (currentOf reg name) c.version then c.version
         else currentOf reg name)) ∧
    (currentOf (regSeq fe reg name calls) name =
      calls.foldl (fun a c => vmaxS a c.version) (currentOf reg name)) ∧
    listLtS (currentOf (regSeq fe reg name calls) name) (currentOf reg name) = false := by
  refine ⟨?_, ?_, ?_⟩
  · intro c hc1 hc2
    have := regSeq_currentOf fe name [c] reg
      (by intro w hw; simp at hw; subst hw; exact hc1)
      (by intro w hw; simp at hw; subst hw; exact hc2) hcur
    rw [this]
    rfl
  · exact regSeq_currentOf fe name calls reg hfe hpv hcur
  · rw [regSeq_currentOf fe name calls reg hfe hpv hcur]
    have hmap : calls.foldl (fun a c => vmaxS a c.version) (currentOf reg name) =
        (calls.map RegCall.version).foldl vmaxS (currentOf reg name) := by
      rw [List.foldl_map]
    rw [hmap]
    exact foldl_vmaxS_not_lt (calls.map RegCall.version) (currentOf reg name) hcur
      (by intro w hw
          obtain ⟨c, hc, hcv⟩ := List.mem_map.mp hw
          subst hcv
          exact hpv c hc)

theorem C3_registry_monotonicity_witness :
    currentOf (regSeq (fun _ => true) defaultRegistry "condition_model"
        [⟨"m.pth", "1.1.0", "t1"⟩, ⟨"m.pth", "2.0.0", "t2"⟩]) "condition_model" =
      [⟨"m.pth", "1.1.0", "t1"⟩, (⟨"m.pth", "2.0.0", "t2"⟩ : RegCall)].foldl
        (fun a c => vmaxS a c.version) (currentOf defaultRegistry "condition_model") ∧
    listLtS (currentOf (regSeq (fun _ => true) defaultRegistry "condition_model"
        [⟨"m.pth", "1.1.0", "t1"⟩, ⟨"m.pth", "2.0.0", "t2"⟩]) "condition_model")
      (currentOf defaultRegistry "condition_model") = false :=
  ⟨(C3_registry_monotonicity (fun _ => true) defaultRegistry "condition_model"
      [⟨"m.pth", "1.1.0", "t1"⟩, ⟨"m.pth", "2.0.0", "t2"⟩]
      (by intro c _; rfl) (by decide) (by decide)).2.1,
   (C3_registry_monotonicity (fun _ => true) defaultRegistry "condition_model"
      [⟨"m.pth", "1.1.0", "t1"⟩, ⟨"m.pth", "2.0.0", "t2"⟩]
      (by intro c _; rfl) (by decide) (by decide)).2.2⟩

/-- C3 counterexample: from the code's own initial catalog (`condition_model`
current at `1.0.0`, no registered versions), the increasing one-call sequence
registering explicit version `0.1.0` succeeds, yet `GetCurrentVersion` stays
`1.0.0` while the greatest (and only) registered version is `0.1.0` — so the
claim that it equals the greatest version registered fails. -/
theorem C3_registry_counterexample :
    currentOf (regSeq (fun _ => true) defaultRegistry "condition_model"
        [⟨"model.pth", "0.1.0", "20240101000000"⟩]) "condition_model" = "1.0.0" ∧
    get_model_versions (regSeq (fun _ => true) defaultRegistry "condition_model"
        [⟨"model.pth", "0.1.0", "20240101000000"⟩]) "condition_model" = ["0.1.0"] ∧
    currentOf (regSeq (fun _ => true) defaultRegistry "condition_model"
        [⟨"model.pth", "0.1.0", "20240101000000"⟩]) "condition_model" ≠ "0.1.0" := by
  refine ⟨rfl, rfl, by decide⟩

/-! ## C6: auto-generated version increments minor -/

/-- C6: registering with the version omitted, on a model whose current version
is `1.2.3`, auto-generates version `1.3.0` (minor incremented, patch reset to
0). -/
theorem C6_auto_version_increment (reg : RegState) (fe : String → Bool)
    (name path ts : String)
    (hcur : get_current_version reg name = some "1.2.3")
    (hfe : fe path = true) :
    ∃ res : RegState × String × String,
      register_model_version reg fe name path none [] none ts = some res ∧
      res.2.1 = "1.3.0" := by
  obtain ⟨e, he, hev⟩ : ∃ e, alistGet reg.models name = some e ∧
      e.current_version = "1.2.3" := by
    unfold get_current_version at hcur
    cases h : alistGet reg.models name with
    | none => rw [h] at hcur; simp at hcur
    | some e =>
      rw [h] at hcur
      simp at hcur
      exact ⟨e, rfl, hcur⟩
  unfold register_model_version
  rw [hfe]
  simp only [Bool.not_true, if_false, he, Option.getD_some, hev]
  rw [show parse3 "1.2.3" = some (1, 2, 3) from by decide]
  simp only []
  rw [show parseParts "1.2.3" = some [1, 2, 3] from by decide]
  rw [show parseParts (toString 1 ++ "." ++ toString (2 + 1) ++ ".0") = some [1, 3, 0]
    from by decide]
  exact ⟨_, rfl, rfl⟩

theorem C6_auto_version_increment_witness :
    ∃ res : RegState × String × String,
      register_model_version reg123 (fun _ => true) "condition_model" "m.pth" none [] none
        "ts" = some res ∧
      res.2.1 = "1.3.0" :=
  C6_auto_version_increment reg123 (fun _ => true) "condition_model" "m.pth" "ts" rfl rfl

/-! ## C1: degradation ladder on a missing primary artifact -/

theorem log_deployment_event_reg (sys : InfSys) (now et m ver msg : String) :
    (log_deployment_event sys now et m ver msg).reg = sys.reg := by
  unfold log_deployment_event
  split <;> rfl

theorem log_deployment_event_audit (sys : InfSys) (now et m ver msg : String) :
    (log_deployment_event sys now et m ver msg).audit = sys.audit := by
  unfold log_deployment_event
  split <;> rfl

theorem log_deployment_event_events (sys : InfSys) (now et m ver msg : String) :
    (log_deployment_event sys now et m ver msg).events =
      sys.events ++ [{ timestamp := now, event_type := et, model := m,
                       version := ver, message := msg }] := by
  unfold log_deployment_event
  split <;> rfl

theorem log_deployment_event_status_nondeploy (sys : InfSys) (now et m ver msg : String)
    (h : ¬ (et = "deployment" ∨ et = "rollback")) :
    (log_deployment_event sys now et m ver msg).status = sys.status := by
  unfold log_deployment_event
  rw [if_neg h]

/-- C1: when the primary (current-version) artifact fails to load and the
resolved fallback version's artifact loads, a service call still returns a
score in `[1, 5]` and appends exactly one inference record, carrying
`fallback_used = true` and the resolved fallback version — not the requested
current version — whatever the model run and image read yield. -/
theorem C1_degradation_ladder (env : InfEnv) (img v p fb pf : String)
    (h1 : get_current_version env.sys.reg "condition_model" = some v)
    (h2 : get_model_path env.sys.reg "condition_model" (some v) = some p)
    (h3 : env.loadOk p = false)
    (h4 : get_fallback_model_version env.sys.status = some fb)
    (h5 : fb ≠ "")
    (h6 : get_model_path env.sys.reg "condition_model" (some fb) = some pf)
    (h7 : env.loadOk pf = true) :
    ∃ rec : InferenceRecord,
      (analyze_property_condition env img).1.audit = env.sys.audit ++ [rec] ∧
      rec.fallback_used = true ∧
      rec.model_version = fb ∧
      rec.score = (analyze_property_condition env img).2 ∧
      1 ≤ rec.score ∧ rec.score ≤ 5 := by
  have htry : tryPrimary env none = .failed (some v) (some p) := by
    simp only [tryPrimary, h1, h2, h3]
    rfl
  have herrst : (log_deployment_event env.sys env.now "error" "condition_model"
      (pyOr (some v) "unknown") "Error loading model").status = env.sys.status :=
    log_deployment_event_status_nondeploy _ _ _ _ _ _ (by simp)
  have herrreg : (log_deployment_event env.sys env.now "error" "condition_model"
      (pyOr (some v) "unknown") "Error loading model").reg = env.sys.reg :=
    log_deployment_event_reg _ _ _ _ _ _
  have hscorer : scorerInit env none =
      (⟨some fb, some p, true, true, none, some pf⟩,
       log_deployment_event
         (log_deployment_event env.sys env.now "error" "condition_model"
           (pyOr (some v) "unknown") "Error loading model")
         env.now "recovery" "condition_model" fb "Recovered using fallback model") := by
    simp only [scorerInit, htry, herrst, herrreg, h4, h5, h6, h7]
    simp [h5]
  have haudit2 : (log_deployment_event
      (log_deployment_event env.sys env.now "error" "condition_model"
        (pyOr (some v) "unknown") "Error loading model")
      env.now "recovery" "condition_model" fb "Recovered using fallback model").audit =
      env.sys.audit := by
    rw [log_deployment_event_audit, log_deployment_event_audit]
  have hver : pyOr (some fb) "2.0.0" = fb := by
    simp [pyOr, h5]
  rcases hrun : env.runModel pf img with _ | s
  · -- the fallback-loaded model also fails at prediction: heuristic tier
    refine ⟨{ timestamp := env.now, filename := baseName img,
              model_name := "condition_model", model_version := fb,
              score := max 1 (min 5 (round1 (fallback_scoring (env.imageStats img)))),
              confidence := none, execution_time_ms := env.execMs,
              fallback_used := true }, ?_, rfl, rfl, ?_, ?_, ?_⟩
    · simp only [analyze_property_condition, hscorer, predict_condition, hrun]
      simp [log_inference, log_deployment_event_audit, haudit2, hver]
    · simp only [analyze_property_condition, hscorer, predict_condition, hrun]
      simp
    · exact (clamp_score_bounds _).1
    · exact (clamp_score_bounds _).2
  · -- the fallback-loaded model predicts
    refine ⟨{ timestamp := env.now, filename := baseName img,
              model_name := "condition_model", model_version := fb,
              score := max 1 (min 5 (round1 s)),
              confidence := none, execution_time_ms := env.execMs,
              fallback_used := true }, ?_, rfl, rfl, ?_, ?_, ?_⟩
    · simp only [analyze_property_condition, hscorer, predict_condition, hrun]
      simp [log_inference, haudit2, hver]
    · simp only [analyze_property_condition, hscorer, predict_condition, hrun]
      simp
    · exact (clamp_score_bounds _).1
    · exact (clamp_score_bounds _).2

theorem C1_degradation_ladder_witness :
    ∃ rec : InferenceRecord,
      (analyze_property_condition envC1 "uploads/img.jpg").1.audit =
        envC1.sys.audit ++ [rec] ∧
      rec.fallback_used = true ∧
      rec.model_version = "1.0.0" ∧
      rec.score = (analyze_property_condition envC1 "uploads/img.jpg").2 ∧
      1 ≤ rec.score ∧ rec.score ≤ 5 :=
  C1_degradation_ladder envC1 "uploads/img.jpg" "2.0.0" "a.pth" "1.0.0" "b.pth"
    rfl rfl rfl rfl (by decide) rfl rfl
